import Mathlib

/-!
Verification of the bug-tracker's validation core against its specification.

The development shallowly embeds:
* `server/src/utils/validation.js` — `validateBugData`, `sanitizeBugData`,
  `isValidObjectId`;
* `server/src/routes/bugs.js` — the GET/:id, PUT/:id and DELETE/:id handlers,
  with the document store abstracted as an oracle and the database calls a
  handler makes recorded as a trace;
* the frontend's client-side filter (status / priority / free-text search).

JavaScript dynamic values are modelled by the inductive `JSValue`, objects by
ordered association lists, and `String.prototype.trim` by an explicit
character-list function, so that every definition is executable.
-/

/-- A JavaScript runtime value, as far as the validation code inspects one:
strings, numbers (the code never does arithmetic, an integer model suffices),
booleans, `null`, `undefined` and arrays. -/
inductive JSValue where
  | vStr : String → JSValue
  | vNum : Int → JSValue
  | vBool : Bool → JSValue
  | vNull : JSValue
  | vUndefined : JSValue
  | vArr : List JSValue → JSValue
deriving Repr

/-- JavaScript truthiness, as tested by `if (x)` and `x && y`: the empty
string, zero, `false`, `null` and `undefined` are falsy; arrays are truthy. -/
def truthy : JSValue → Bool
  | .vStr s => s != ""
  | .vNum n => n != 0
  | .vBool b => b
  | .vNull => false
  | .vUndefined => false
  | .vArr _ => true

/-- `typeof x === 'string'`. -/
def isString : JSValue → Bool
  | .vStr _ => true
  | _ => false

/-- `Array.isArray(x)`. -/
def isArray : JSValue → Bool
  | .vArr _ => true
  | _ => false

/-- `x === undefined`. -/
def isUndefined : JSValue → Bool
  | .vUndefined => true
  | _ => false

/-- The text carried by a string value; only ever applied under a
`typeof === 'string'` guard, the default is never reached by the code. -/
def strVal : JSValue → String
  | .vStr s => s
  | _ => ""

/-- The elements of an array value; only applied under an `Array.isArray`
guard. -/
def arrVal : JSValue → List JSValue
  | .vArr l => l
  | _ => []

/-- White space removed by `String.prototype.trim` (restricted to the ASCII
whitespace characters, the cases the repository's data exercises). -/
def jsWhitespaceChar (c : Char) : Bool :=
  c == ' ' || c == '\t' || c == '\n' || c == '\r' || c == '\x0b' || c == '\x0c'

/-- Leading and trailing whitespace removal on a character list. -/
def jsTrimList (l : List Char) : List Char :=
  ((l.dropWhile jsWhitespaceChar).reverse.dropWhile jsWhitespaceChar).reverse

/-- Model of `String.prototype.trim`. -/
def jsTrim (s : String) : String :=
  ⟨jsTrimList s.data⟩

/-- Model of `String.prototype.length` (the code only measures it against
bounds, character count suffices). -/
def jsLength (s : String) : Nat :=
  s.data.length

/-- A JavaScript object: its own enumerable properties in insertion order.
A real object never repeats a key. -/
abbrev JSObject := List (String × JSValue)

/-- Property read `o[k]`; `undefined` when the key is absent. -/
def getField (o : JSObject) (k : String) : JSValue :=
  match o.find? (fun p => p.1 == k) with
  | some p => p.2
  | none => .vUndefined

/-- Property write `o[k] = v`: replaces the binding in place (JavaScript keeps
the original insertion position), appends when the key is new. -/
def setField : JSObject → String → JSValue → JSObject
  | [], k, v => [(k, v)]
  | p :: rest, k, v => if p.1 == k then (k, v) :: rest else p :: setField rest k v

/-- `Object.keys(o)`. -/
def objKeys (o : JSObject) : List String :=
  o.map Prod.fst

/-- The result object `{ isValid, errors }` of `validateBugData`. -/
structure ValidationResult where
  isValid : Bool
  errors : List String
deriving Repr, DecidableEq

/-- Title block of `validateBugData` (validation.js lines 11-18):
`!bugData.title || typeof bugData.title !== 'string'`, else empty after trim,
else length over 100. -/
def titleErrors (bugData : JSObject) : List String :=
  let t := getField bugData "title"
  if !truthy t || !isString t then
    ["Title is required and must be a string"]
  else if jsLength (jsTrim (strVal t)) == 0 then
    ["Title cannot be empty"]
  else if jsLength (strVal t) > 100 then
    ["Title cannot exceed 100 characters"]
  else []

/-- Description block (validation.js lines 20-27), limit 1000. -/
def descriptionErrors (bugData : JSObject) : List String :=
  let d := getField bugData "description"
  if !truthy d || !isString d then
    ["Description is required and must be a string"]
  else if jsLength (jsTrim (strVal d)) == 0 then
    ["Description cannot be empty"]
  else if jsLength (strVal d) > 1000 then
    ["Description cannot exceed 1000 characters"]
  else []

/-- `validStatuses.includes(bugData.status)`: an `includes` over the four
string literals holds exactly for those four strings, and never for a
non-string value. -/
def isValidStatus : JSValue → Bool
  | .vStr s => s == "open" || s == "in-progress" || s == "resolved" || s == "closed"
  | _ => false

/-- Status block (validation.js lines 29-33): checked whenever
`bugData.status !== undefined`. -/
def statusErrors (bugData : JSObject) : List String :=
  let st := getField bugData "status"
  if !isUndefined st && !isValidStatus st then
    ["Status must be one of: open, in-progress, resolved, closed"]
  else []

/-- `validPriorities.includes(bugData.priority)`. -/
def isValidPriority : JSValue → Bool
  | .vStr s => s == "low" || s == "medium" || s == "high" || s == "critical"
  | _ => false

/-- Priority block (validation.js lines 35-39): checked only when
`bugData.priority` is truthy. -/
def priorityErrors (bugData : JSObject) : List String :=
  let p := getField bugData "priority"
  if truthy p && !isValidPriority p then
    ["Priority must be one of: low, medium, high, critical"]
  else []

/-- Reporter block (validation.js lines 41-46). -/
def reporterErrors (bugData : JSObject) : List String :=
  let r := getField bugData "reporter"
  if !truthy r || !isString r then
    ["Reporter is required and must be a string"]
  else if jsLength (jsTrim (strVal r)) == 0 then
    ["Reporter cannot be empty"]
  else []

/-- Assignee block (validation.js lines 48-51). -/
def assigneeErrors (bugData : JSObject) : List String :=
  let a := getField bugData "assignee"
  if truthy a && !isString a then
    ["Assignee must be a string"]
  else []

/-- The message pushed for a non-string tag:
``` `Tag at index ${index} must be a string` ```. -/
def tagIndexError (i : Nat) : String :=
  s!"Tag at index {i} must be a string"

/-- Tags block (validation.js lines 53-64): guarded by truthiness of
`bugData.tags`; a non-array yields one error, an array one error per
non-string element, in index order (`forEach`). -/
def tagsErrors (bugData : JSObject) : List String :=
  let tags := getField bugData "tags"
  if truthy tags then
    if !isArray tags then
      ["Tags must be an array"]
    else
      (arrVal tags).enum.filterMap
        (fun p => if !isString p.2 then some (tagIndexError p.1) else none)
  else []

/-- `validateBugData` (validation.js lines 8-70): the error messages
accumulate in source push order — title, description, status, priority,
reporter, assignee, tags — and `isValid` is `errors.length === 0`. -/
def validateBugData (bugData : JSObject) : ValidationResult :=
  let errors :=
    titleErrors bugData ++ descriptionErrors bugData ++ statusErrors bugData ++
      priorityErrors bugData ++ reporterErrors bugData ++ assigneeErrors bugData ++
      tagsErrors bugData
  { isValid := errors.length == 0, errors := errors }

/-- One step of the trim loop of `sanitizeBugData` (validation.js lines
81-85): `if (sanitized[field] && typeof sanitized[field] === 'string')
sanitized[field] = sanitized[field].trim()`. -/
def trimStringField (o : JSObject) (f : String) : JSObject :=
  if truthy (getField o f) && isString (getField o f) then
    setField o f (.vStr (jsTrim (strVal (getField o f))))
  else o

/-- The tags clean-up of `sanitizeBugData` (validation.js lines 89-92):
keep the strings, trim them, keep the non-empty results. -/
def sanitizeTagList (l : List JSValue) : List JSValue :=
  ((l.filter isString).map (fun t => JSValue.vStr (jsTrim (strVal t)))).filter
    (fun t => decide (jsLength (strVal t) > 0))

/-- `sanitizeBugData` (validation.js lines 77-96): copy the object, trim the
four text fields, and rebuild `tags` when it is a (truthy) array. -/
def sanitizeBugData (bugData : JSObject) : JSObject :=
  let sanitized := ["title", "description", "reporter", "assignee"].foldl trimStringField bugData
  let tags := getField sanitized "tags"
  if truthy tags && isArray tags then
    setField sanitized "tags" (.vArr (sanitizeTagList (arrVal tags)))
  else sanitized

/-- One character of the regex class `[0-9a-fA-F]`. -/
def isHexDigitChar (c : Char) : Bool :=
  (decide ('0' ≤ c) && decide (c ≤ '9')) ||
    (decide ('a' ≤ c) && decide (c ≤ 'f')) ||
    (decide ('A' ≤ c) && decide (c ≤ 'F'))

/-- `isValidObjectId` (validation.js lines 103-105):
`/^[0-9a-fA-F]{24}$/.test(id)` — exactly 24 characters, all hexadecimal. -/
def isValidObjectId (id : String) : Bool :=
  id.data.length == 24 && id.data.all isHexDigitChar

/-- The JSON body shapes the bugs.js handlers send. -/
inductive ResBody where
  | errMsg : String → ResBody
  | errDetails (error : String) (details : List String) : ResBody
  | bugRecord : JSObject → ResBody
  | message : String → ResBody
deriving Repr

/-- A route handler's HTTP response. -/
structure Response where
  status : Nat
  body : ResBody
deriving Repr

/-- One database call a handler makes, with its arguments; the handlers below
return the list of calls they performed, in order. -/
inductive DbOp where
  | findById : String → DbOp
  | findByIdAndUpdate : String → JSObject → DbOp
  | findByIdAndDelete : String → DbOp
deriving Repr

/-- The document store as an oracle: what each Mongoose call would answer.
`findByIdAndUpdate` receives the sanitized data (bugs.js merges in the
`updatedAt` refresh inside the store call). -/
structure DbApi where
  findById : String → Option JSObject
  findByIdAndUpdate : String → JSObject → Option JSObject
  findByIdAndDelete : String → Option JSObject

/-- GET /api/bugs/:id (bugs.js lines 44-63): a malformed id is rejected with
400 before any database call; an absent bug yields 404. -/
def getByIdHandler (db : DbApi) (id : String) : List DbOp × Response :=
  if !isValidObjectId id then
    ([], ⟨400, .errMsg "Invalid bug ID format"⟩)
  else
    match db.findById id with
    | none => ([.findById id], ⟨404, .errMsg "Bug not found"⟩)
    | some bug => ([.findById id], ⟨200, .bugRecord bug⟩)

/-- The guard on running full validation in PUT (bugs.js line 105):
`Object.keys(sanitizedData).length > 1 || !sanitizedData.status`. -/
def putRunsValidation (sanitizedData : JSObject) : Bool :=
  decide ((objKeys sanitizedData).length > 1) ||
    !truthy (getField sanitizedData "status")

/-- The update step every validated PUT path reaches (bugs.js lines
117-128). -/
def putUpdateStep (db : DbApi) (id : String) (sanitizedData : JSObject) :
    List DbOp × Response :=
  match db.findByIdAndUpdate id sanitizedData with
  | none => ([.findByIdAndUpdate id sanitizedData], ⟨404, .errMsg "Bug not found"⟩)
  | some updated => ([.findByIdAndUpdate id sanitizedData], ⟨200, .bugRecord updated⟩)

/-- PUT /api/bugs/:id (bugs.js lines 93-133): id shape check, sanitize,
conditionally validate (`let validation = { isValid: true }` otherwise),
then update. -/
def putHandler (db : DbApi) (id : String) (body : JSObject) : List DbOp × Response :=
  if !isValidObjectId id then
    ([], ⟨400, .errMsg "Invalid bug ID format"⟩)
  else
    let sanitizedData := sanitizeBugData body
    let validation :=
      if putRunsValidation sanitizedData then validateBugData sanitizedData
      else { isValid := true, errors := [] }
    if !validation.isValid then
      ([], ⟨400, .errDetails "Validation failed" validation.errors⟩)
    else
      putUpdateStep db id sanitizedData

/-- DELETE /api/bugs/:id (bugs.js lines 136-156). -/
def deleteHandler (db : DbApi) (id : String) : List DbOp × Response :=
  if !isValidObjectId id then
    ([], ⟨400, .errMsg "Invalid bug ID format"⟩)
  else
    match db.findByIdAndDelete id with
    | none => ([.findByIdAndDelete id], ⟨404, .errMsg "Bug not found"⟩)
    | some _ => ([.findByIdAndDelete id], ⟨200, .message "Bug deleted successfully"⟩)

/-- `toLowerCase`, character-wise — as called throughout `BugList`'s filter. -/
def jsToLower (s : String) : String :=
  ⟨s.data.map Char.toLower⟩

/-- Does `needle` occur as a contiguous run inside the character list? -/
def subListAt (needle : List Char) : List Char → Bool
  | [] => List.isPrefixOf needle []
  | c :: t => List.isPrefixOf needle (c :: t) || subListAt needle t

/-- `hay.includes(needle)` on strings. -/
def strIncludes (hay needle : String) : Bool :=
  subListAt needle.data hay.data

/-- The bug record as the `BugList` component declares it (its `propTypes`,
in the component source staged inside
`server/tests/integration/bugs.test.js`): title, description, reporter,
status and priority are required text, assignee an optional text field, tags
an optional sequence of text. -/
structure ClientBug where
  title : String
  description : String
  reporter : String
  assignee : Option String
  tags : Option (List String)
  status : String
  priority : String
deriving Repr, DecidableEq

/-- `BugList`'s filter criteria state,
`useState({ status: '', priority: '', search: '' })`: empty text means the
criterion is off. -/
structure BugFilter where
  status : String
  priority : String
  search : String
deriving Repr, DecidableEq

/-- The search predicate of `BugList`'s filter effect, applied to the
already-lowercased search term (`const searchTerm =
filter.search.toLowerCase()`): title, description or reporter contains it,
or `(bug.assignee && bug.assignee.toLowerCase().includes(searchTerm))`, or
`(bug.tags && bug.tags.some(tag => tag.toLowerCase().includes(searchTerm)))`
— the assignee and tags reads are truthiness-guarded (a missing field, and
for assignee also the empty string, short-circuits to false). -/
def matchesSearch (searchTerm : String) (bug : ClientBug) : Bool :=
  strIncludes (jsToLower bug.title) searchTerm ||
  strIncludes (jsToLower bug.description) searchTerm ||
  strIncludes (jsToLower bug.reporter) searchTerm ||
  (match bug.assignee with
   | some a => a != "" && strIncludes (jsToLower a) searchTerm
   | none => false) ||
  (match bug.tags with
   | some tags => tags.any (fun tag => strIncludes (jsToLower tag) searchTerm)
   | none => false)

/-- The filter computation of `BugList`'s effect hook: start from a copy of
the list (`let filtered = [...bugs]`), then, for each truthy criterion in
turn — status, priority, search — keep only the records passing it. -/
def filterBugs (bugs : List ClientBug) (filter : BugFilter) : List ClientBug :=
  let filtered := bugs
  let filtered := if filter.status != "" then
      filtered.filter (fun bug => bug.status == filter.status)
    else filtered
  let filtered := if filter.priority != "" then
      filtered.filter (fun bug => bug.priority == filter.priority)
    else filtered
  let filtered := if filter.search != "" then
      filtered.filter (matchesSearch (jsToLower filter.search))
    else filtered
  filtered

/-- What `sanitizeBugData` does to one of the four text fields, as a value
transformation: trimmed when truthy text, untouched otherwise. -/
def sanitizedTextValue (u : JSValue) : JSValue :=
  if truthy u && isString u then JSValue.vStr (jsTrim (strVal u)) else u

/-- The spec's wording of the tag clean-up (spec §4.1, §8): drop any element
that is not text, trim the remaining elements, then drop any element that is
empty after trimming, preserving the order of survivors. -/
def specTagCleanup (l : List JSValue) : List JSValue :=
  l.filterMap (fun v =>
    match v with
    | .vStr s => if jsTrim s = "" then none else some (.vStr (jsTrim s))
    | _ => none)

/-- The spec's wording of the PUT validation guard (spec §6): run full
validation when the sanitized body has more than one key or a key other than
`status`. -/
def specPutRunsValidation (sanitizedData : JSObject) : Bool :=
  decide ((objKeys sanitizedData).length > 1) ||
    (objKeys sanitizedData).any (fun k => k != "status")

/-- The three title messages of `validateBugData`. -/
def titleMsgs : List String :=
  ["Title is required and must be a string", "Title cannot be empty",
   "Title cannot exceed 100 characters"]

/-- The three description messages of `validateBugData`. -/
def descriptionMsgs : List String :=
  ["Description is required and must be a string", "Description cannot be empty",
   "Description cannot exceed 1000 characters"]

/-- The two reporter messages of `validateBugData`. -/
def reporterMsgs : List String :=
  ["Reporter is required and must be a string", "Reporter cannot be empty"]

/-- The hexadecimal alphabet of the identifier regex. -/
def hexAlphabet : String :=
  "0123456789abcdefABCDEF"

/-- A store oracle on which every lookup succeeds (with an empty record) —
used to instantiate handler theorems at concrete inputs. -/
def dbAlways : DbApi where
  findById := fun _ => some []
  findByIdAndUpdate := fun _ _ => some []
  findByIdAndDelete := fun _ => some []

/-- The tag array of the spec's worked sanitization example:
`["  tag1  ", "", "  tag2  ", 123]`. -/
def exampleTagList : List JSValue :=
  [JSValue.vStr "  tag1  ", JSValue.vStr "", JSValue.vStr "  tag2  ", JSValue.vNum 123]

lemma getField_cons (x : String × JSValue) (rest : JSObject) (k : String) :
    getField (x :: rest) k = if x.1 == k then x.2 else getField rest k := by
  by_cases h : (x.1 == k) = true
  · simp [getField, List.find?_cons_of_pos _ h, h]
  · have h2 : ¬ (x.1 == k) = true := h
    simp [getField, List.find?_cons_of_neg _ h2, h]

lemma getField_setField_same (o : JSObject) (k : String) (v : JSValue) :
    getField (setField o k v) k = v := by
  induction o with
  | nil => simp [setField, getField_cons]
  | cons p rest ih =>
    by_cases h : (p.1 == k) = true
    · simp [setField, h, getField_cons]
    · simp [setField, h, getField_cons, ih]

lemma getField_setField_ne (o : JSObject) (k k' : String) (v : JSValue) (h : k' ≠ k) :
    getField (setField o k v) k' = getField o k' := by
  have hkk : (k == k') = false := by simpa using Ne.symm h
  induction o with
  | nil => simp [setField, getField_cons, hkk, getField]
  | cons p rest ih =>
    by_cases hp : (p.1 == k) = true
    · have hp' : (p.1 == k') = false := by
        simp at hp
        simpa [hp] using Ne.symm h
      simp [setField, hp, getField_cons, hkk, hp']
    · simp [setField, hp, getField_cons, ih]

lemma getField_eq_undefined_of_not_mem (o : JSObject) (k : String)
    (h : k ∉ objKeys o) : getField o k = JSValue.vUndefined := by
  induction o with
  | nil => simp [getField]
  | cons p rest ih =>
    simp [objKeys] at h ih
    have h1 : (p.1 == k) = false := by
      have := h.1
      simp only [beq_eq_false_iff_ne]
      exact fun hh => this hh.symm
    simp [getField_cons, h1, ih h.2]

lemma mem_objKeys_of_truthy (o : JSObject) (k : String)
    (h : truthy (getField o k) = true) : k ∈ objKeys o := by
  by_contra hk
  rw [getField_eq_undefined_of_not_mem o k hk] at h
  simp [truthy] at h

lemma getField_trimStringField_ne (o : JSObject) (f k : String) (h : k ≠ f) :
    getField (trimStringField o f) k = getField o k := by
  unfold trimStringField
  split
  · exact getField_setField_ne o f k _ h
  · rfl

lemma getField_trimStringField_self (o : JSObject) (f : String) :
    getField (trimStringField o f) f = sanitizedTextValue (getField o f) := by
  unfold trimStringField sanitizedTextValue
  split
  · rw [getField_setField_same]
  · rfl

lemma getField_sanitize_text (b : JSObject) (f : String)
    (hf : f ∈ ["title", "description", "reporter", "assignee"]) :
    getField (sanitizeBugData b) f = sanitizedTextValue (getField b f) := by
  unfold sanitizeBugData
  simp only [List.foldl]
  have htags : f ≠ "tags" := by
    simp at hf
    rcases hf with h | h | h | h <;> simp [h]
  have hstep : ∀ o : JSObject,
      getField (if truthy (getField o "tags") && isArray (getField o "tags") then
          setField o "tags" (JSValue.vArr (sanitizeTagList (arrVal (getField o "tags"))))
        else o) f = getField o f := by
    intro o
    split
    · exact getField_setField_ne o "tags" f _ htags
    · rfl
  rw [hstep]
  simp at hf
  rcases hf with h | h | h | h <;> subst h
  · rw [getField_trimStringField_ne _ _ _ (by decide),
      getField_trimStringField_ne _ _ _ (by decide),
      getField_trimStringField_ne _ _ _ (by decide),
      getField_trimStringField_self]
  · rw [getField_trimStringField_ne _ _ _ (by decide),
      getField_trimStringField_ne _ _ _ (by decide),
      getField_trimStringField_self,
      getField_trimStringField_ne _ _ _ (by decide)]
  · rw [getField_trimStringField_ne _ _ _ (by decide),
      getField_trimStringField_self,
      getField_trimStringField_ne _ _ _ (by decide),
      getField_trimStringField_ne _ _ _ (by decide)]
  · rw [getField_trimStringField_self,
      getField_trimStringField_ne _ _ _ (by decide),
      getField_trimStringField_ne _ _ _ (by decide),
      getField_trimStringField_ne _ _ _ (by decide)]

lemma getField_sanitize_foldl_tags (b : JSObject) :
    getField (["title", "description", "reporter", "assignee"].foldl trimStringField b) "tags" =
      getField b "tags" := by
  simp only [List.foldl]
  rw [getField_trimStringField_ne _ _ _ (by decide),
    getField_trimStringField_ne _ _ _ (by decide),
    getField_trimStringField_ne _ _ _ (by decide),
    getField_trimStringField_ne _ _ _ (by decide)]

lemma getField_sanitize_tags (b : JSObject) (l : List JSValue)
    (h : getField b "tags" = JSValue.vArr l) :
    getField (sanitizeBugData b) "tags" = JSValue.vArr (sanitizeTagList l) := by
  simp only [sanitizeBugData]
  rw [getField_sanitize_foldl_tags, h]
  simp only [truthy, isArray, arrVal, Bool.and_self, if_true]
  rw [getField_setField_same]

lemma getField_sanitize_other (b : JSObject) (k : String)
    (h : k ∉ ["title", "description", "reporter", "assignee", "tags"]) :
    getField (sanitizeBugData b) k = getField b k := by
  simp only [List.mem_cons, List.not_mem_nil, or_false, not_or] at h
  obtain ⟨h1, h2, h3, h4, h5⟩ := h
  have hfold : getField (trimStringField (trimStringField (trimStringField
      (trimStringField b "title") "description") "reporter") "assignee") k = getField b k := by
    rw [getField_trimStringField_ne _ _ _ h4, getField_trimStringField_ne _ _ _ h3,
      getField_trimStringField_ne _ _ _ h2, getField_trimStringField_ne _ _ _ h1]
  simp only [sanitizeBugData, List.foldl]
  split
  · rw [getField_setField_ne _ _ _ _ h5, hfold]
  · exact hfold

lemma trimRight_front_part (l : List Char) :
    (l.reverse.dropWhile jsWhitespaceChar).reverse <+: l := by
  rw [← List.reverse_suffix, List.reverse_reverse]
  exact List.dropWhile_suffix _

lemma dropWhile_of_front_part {m t : List Char}
    (hm : m.dropWhile jsWhitespaceChar = m) (ht : t <+: m) :
    t.dropWhile jsWhitespaceChar = t := by
  cases t with
  | nil => rfl
  | cons a t' =>
    cases m with
    | nil => simp at ht
    | cons b m' =>
      have hab : a = b := by
        obtain ⟨r, hr⟩ := ht
        exact (List.cons.injEq _ _ _ _ ▸ hr).1
      have hb : jsWhitespaceChar b = false := by
        by_contra hb
        rw [Bool.not_eq_false] at hb
        rw [List.dropWhile_cons, hb, if_pos rfl] at hm
        have hle : (m'.dropWhile jsWhitespaceChar).length ≤ m'.length :=
          (List.dropWhile_suffix _).length_le
        rw [hm] at hle
        simp at hle
      rw [List.dropWhile_cons, hab, hb]
      simp

lemma jsTrimList_idempotent (l : List Char) :
    jsTrimList (jsTrimList l) = jsTrimList l := by
  unfold jsTrimList
  have hmm : (l.dropWhile jsWhitespaceChar).dropWhile jsWhitespaceChar =
      l.dropWhile jsWhitespaceChar := List.dropWhile_idempotent _ _
  have hD := dropWhile_of_front_part hmm (trimRight_front_part (l.dropWhile jsWhitespaceChar))
  rw [hD, List.reverse_reverse, List.dropWhile_idempotent]

lemma jsTrim_idempotent (s : String) : jsTrim (jsTrim s) = jsTrim s :=
  congrArg String.mk (jsTrimList_idempotent s.data)

lemma tagIndexError_take4 (i : Nat) :
    (tagIndexError i).data.take 4 = ['T', 'a', 'g', ' '] := by
  simp [tagIndexError, String.data_append, toString]

lemma tagIndexError_ne (i : Nat) (s : String)
    (hs : s.data.take 4 ≠ ['T', 'a', 'g', ' ']) : tagIndexError i ≠ s := by
  intro h
  exact hs (by rw [← h, tagIndexError_take4])

lemma mem_titleErrors {b : JSObject} {s : String} (h : s ∈ titleErrors b) :
    s ∈ titleMsgs := by
  simp only [titleErrors] at h
  split at h
  · simp at h; simp [titleMsgs, h]
  · split at h
    · simp at h; simp [titleMsgs, h]
    · split at h
      · simp at h; simp [titleMsgs, h]
      · simp at h

lemma mem_descriptionErrors {b : JSObject} {s : String} (h : s ∈ descriptionErrors b) :
    s ∈ descriptionMsgs := by
  simp only [descriptionErrors] at h
  split at h
  · simp at h; simp [descriptionMsgs, h]
  · split at h
    · simp at h; simp [descriptionMsgs, h]
    · split at h
      · simp at h; simp [descriptionMsgs, h]
      · simp at h

lemma mem_statusErrors {b : JSObject} {s : String} (h : s ∈ statusErrors b) :
    s = "Status must be one of: open, in-progress, resolved, closed" := by
  simp only [statusErrors] at h
  split at h
  · simpa using h
  · simp at h

lemma mem_priorityErrors {b : JSObject} {s : String} (h : s ∈ priorityErrors b) :
    s = "Priority must be one of: low, medium, high, critical" := by
  simp only [priorityErrors] at h
  split at h
  · simpa using h
  · simp at h

lemma mem_reporterErrors {b : JSObject} {s : String} (h : s ∈ reporterErrors b) :
    s ∈ reporterMsgs := by
  simp only [reporterErrors] at h
  split at h
  · simp at h; simp [reporterMsgs, h]
  · split at h
    · simp at h; simp [reporterMsgs, h]
    · simp at h

lemma mem_assigneeErrors {b : JSObject} {s : String} (h : s ∈ assigneeErrors b) :
    s = "Assignee must be a string" := by
  simp only [assigneeErrors] at h
  split at h
  · simpa using h
  · simp at h

lemma mem_tagsErrors {b : JSObject} {s : String} (h : s ∈ tagsErrors b) :
    s = "Tags must be an array" ∨ ∃ i, s = tagIndexError i := by
  simp only [tagsErrors] at h
  split at h
  · split at h
    · left; simpa using h
    · right
      simp only [List.mem_filterMap] at h
      obtain ⟨q, hq, hqs⟩ := h
      by_cases hs : isString q.2 = true
      · simp [hs] at hqs
      · simp [hs] at hqs
        exact ⟨q.1, hqs.symm⟩
  · simp at h

lemma count_titleErrors_eq_zero {b : JSObject} {m : String} (hm : m ∉ titleMsgs) :
    (titleErrors b).count m = 0 :=
  List.count_eq_zero.mpr (fun h => hm (mem_titleErrors h))

lemma count_descriptionErrors_eq_zero {b : JSObject} {m : String} (hm : m ∉ descriptionMsgs) :
    (descriptionErrors b).count m = 0 :=
  List.count_eq_zero.mpr (fun h => hm (mem_descriptionErrors h))

lemma count_statusErrors_eq_zero {b : JSObject} {m : String}
    (hm : m ≠ "Status must be one of: open, in-progress, resolved, closed") :
    (statusErrors b).count m = 0 :=
  List.count_eq_zero.mpr (fun h => hm (mem_statusErrors h))

lemma count_priorityErrors_eq_zero {b : JSObject} {m : String}
    (hm : m ≠ "Priority must be one of: low, medium, high, critical") :
    (priorityErrors b).count m = 0 :=
  List.count_eq_zero.mpr (fun h => hm (mem_priorityErrors h))

lemma count_reporterErrors_eq_zero {b : JSObject} {m : String} (hm : m ∉ reporterMsgs) :
    (reporterErrors b).count m = 0 :=
  List.count_eq_zero.mpr (fun h => hm (mem_reporterErrors h))

lemma count_assigneeErrors_eq_zero {b : JSObject} {m : String}
    (hm : m ≠ "Assignee must be a string") :
    (assigneeErrors b).count m = 0 :=
  List.count_eq_zero.mpr (fun h => hm (mem_assigneeErrors h))

lemma count_tagsErrors_eq_zero {b : JSObject} {m : String}
    (h1 : m ≠ "Tags must be an array") (h2 : m.data.take 4 ≠ ['T', 'a', 'g', ' ']) :
    (tagsErrors b).count m = 0 := by
  refine List.count_eq_zero.mpr (fun h => ?_)
  rcases mem_tagsErrors h with he | ⟨i, he⟩
  · exact h1 he
  · exact tagIndexError_ne i m h2 he.symm

lemma validate_errors_eq (b : JSObject) :
    (validateBugData b).errors =
      titleErrors b ++ descriptionErrors b ++ statusErrors b ++ priorityErrors b ++
        reporterErrors b ++ assigneeErrors b ++ tagsErrors b := rfl

lemma count_errors_title (b : JSObject) (m : String) (hm : m ∈ titleMsgs) :
    ((validateBugData b).errors).count m = (titleErrors b).count m := by
  fin_cases hm <;>
  · rw [validate_errors_eq]
    simp only [List.count_append]
    rw [count_descriptionErrors_eq_zero (by decide),
      count_statusErrors_eq_zero (by decide),
      count_priorityErrors_eq_zero (by decide),
      count_reporterErrors_eq_zero (by decide),
      count_assigneeErrors_eq_zero (by decide),
      count_tagsErrors_eq_zero (by decide) (by decide)]
    omega

lemma count_errors_description (b : JSObject) (m : String) (hm : m ∈ descriptionMsgs) :
    ((validateBugData b).errors).count m = (descriptionErrors b).count m := by
  fin_cases hm <;>
  · rw [validate_errors_eq]
    simp only [List.count_append]
    rw [count_titleErrors_eq_zero (by decide),
      count_statusErrors_eq_zero (by decide),
      count_priorityErrors_eq_zero (by decide),
      count_reporterErrors_eq_zero (by decide),
      count_assigneeErrors_eq_zero (by decide),
      count_tagsErrors_eq_zero (by decide) (by decide)]
    omega

lemma count_errors_reporter (b : JSObject) (m : String) (hm : m ∈ reporterMsgs) :
    ((validateBugData b).errors).count m = (reporterErrors b).count m := by
  fin_cases hm <;>
  · rw [validate_errors_eq]
    simp only [List.count_append]
    rw [count_titleErrors_eq_zero (by decide),
      count_descriptionErrors_eq_zero (by decide),
      count_statusErrors_eq_zero (by decide),
      count_priorityErrors_eq_zero (by decide),
      count_assigneeErrors_eq_zero (by decide),
      count_tagsErrors_eq_zero (by decide) (by decide)]
    omega

lemma count_errors_status (b : JSObject) :
    ((validateBugData b).errors).count
        "Status must be one of: open, in-progress, resolved, closed" =
      (statusErrors b).count
        "Status must be one of: open, in-progress, resolved, closed" := by
  rw [validate_errors_eq]
  simp only [List.count_append]
  rw [count_titleErrors_eq_zero (by decide),
    count_descriptionErrors_eq_zero (by decide),
    count_priorityErrors_eq_zero (by decide),
    count_reporterErrors_eq_zero (by decide),
    count_assigneeErrors_eq_zero (by decide),
    count_tagsErrors_eq_zero (by decide) (by decide)]
  omega

lemma count_errors_priority (b : JSObject) :
    ((validateBugData b).errors).count
        "Priority must be one of: low, medium, high, critical" =
      (priorityErrors b).count
        "Priority must be one of: low, medium, high, critical" := by
  rw [validate_errors_eq]
  simp only [List.count_append]
  rw [count_titleErrors_eq_zero (by decide),
    count_descriptionErrors_eq_zero (by decide),
    count_statusErrors_eq_zero (by decide),
    count_reporterErrors_eq_zero (by decide),
    count_assigneeErrors_eq_zero (by decide),
    count_tagsErrors_eq_zero (by decide) (by decide)]
  omega

lemma isHexDigitChar_iff (c : Char) : isHexDigitChar c = true ↔ c ∈ hexAlphabet.data := by
  constructor
  · intro h
    have hc : c = Char.ofNat c.toNat := (Char.ofNat_toNat c).symm
    simp only [isHexDigitChar, Bool.or_eq_true, Bool.and_eq_true, decide_eq_true_eq] at h
    obtain ⟨n, hn⟩ : ∃ n, c.toNat = n := ⟨_, rfl⟩
    rw [hn] at hc
    rcases h with (⟨h1, h2⟩ | ⟨h1, h2⟩) | ⟨h1, h2⟩
    · rw [Char.le_def] at h1 h2
      have h1' : 48 ≤ c.toNat := h1
      have h2' : c.toNat ≤ 57 := h2
      rw [hn] at h1' h2'
      interval_cases n <;> (rw [hc]; decide)
    · rw [Char.le_def] at h1 h2
      have h1' : 97 ≤ c.toNat := h1
      have h2' : c.toNat ≤ 102 := h2
      rw [hn] at h1' h2'
      interval_cases n <;> (rw [hc]; decide)
    · rw [Char.le_def] at h1 h2
      have h1' : 65 ≤ c.toNat := h1
      have h2' : c.toNat ≤ 70 := h2
      rw [hn] at h1' h2'
      interval_cases n <;> (rw [hc]; decide)
  · intro h
    rw [show hexAlphabet.data =
      ['0', '1', '2', '3', '4', '5', '6', '7', '8', '9'] ++
        (['a', 'b', 'c', 'd', 'e', 'f'] ++ ['A', 'B', 'C', 'D', 'E', 'F']) from rfl] at h
    simp only [List.mem_append] at h
    rcases h with h | h | h <;> fin_cases h <;> decide

/-- Claim C1: for every bug-like mapping, `validateBugData` reports `isValid`
exactly when the returned error list is empty, and the error list is the
concatenation of the title, description, status, priority, reporter, assignee
and tags checks in that fixed order (tag errors in ascending index order by
construction of `tagsErrors`); the embedding is a total function, modelling
that the original is pure, never throws, and reports all failure only through
the returned list. -/
theorem validateBugData_valid_iff_and_ordered (b : JSObject) :
    ((validateBugData b).isValid = true ↔ (validateBugData b).errors = []) ∧
    (validateBugData b).errors =
      titleErrors b ++ descriptionErrors b ++ statusErrors b ++ priorityErrors b ++
        reporterErrors b ++ assigneeErrors b ++ tagsErrors b := by
  refine ⟨?_, rfl⟩
  rw [show (validateBugData b).isValid = (((validateBugData b).errors).length == 0) from rfl]
  simp [List.length_eq_zero]

/-- Claim C6: `isValidObjectId` accepts a token exactly when it has 24
characters all drawn from the hexadecimal alphabet 0-9, a-f, A-F; the spec's
24-character example is accepted and its 23-character example rejected. -/
theorem isValidObjectId_iff_hex24 :
    isValidObjectId "507f1f77bcf86cd799439011" = true ∧
    isValidObjectId "507f1f77bcf86cd79943901" = false ∧
    ∀ id : String, isValidObjectId id = true ↔
      (id.data.length = 24 ∧ ∀ c ∈ id.data, c ∈ hexAlphabet.data) := by
  refine ⟨by decide, by decide, fun id => ?_⟩
  simp only [isValidObjectId, Bool.and_eq_true, beq_iff_eq, List.all_eq_true]
  constructor
  · rintro ⟨h1, h2⟩
    exact ⟨h1, fun c hc => (isHexDigitChar_iff c).mp (h2 c hc)⟩
  · rintro ⟨h1, h2⟩
    exact ⟨h1, fun c hc => (isHexDigitChar_iff c).mpr (h2 c hc)⟩

/-- Claim C5: a present (`!== undefined`) status outside the four enumerated
values contributes exactly one status error naming all four; a truthy
priority outside its four values contributes exactly one priority error; a
falsy priority (absent, empty string) contributes none. -/
theorem status_priority_enum_errors (b : JSObject) :
    ((isUndefined (getField b "status") = false ∧ isValidStatus (getField b "status") = false) →
      ((validateBugData b).errors).count
        "Status must be one of: open, in-progress, resolved, closed" = 1) ∧
    ((truthy (getField b "priority") = true ∧ isValidPriority (getField b "priority") = false) →
      ((validateBugData b).errors).count
        "Priority must be one of: low, medium, high, critical" = 1) ∧
    (truthy (getField b "priority") = false →
      ((validateBugData b).errors).count
        "Priority must be one of: low, medium, high, critical" = 0) := by
  refine ⟨fun ⟨h1, h2⟩ => ?_, fun ⟨h1, h2⟩ => ?_, fun h1 => ?_⟩
  · rw [count_errors_status]
    simp only [statusErrors, h1, h2]
    decide
  · rw [count_errors_priority]
    simp only [priorityErrors, h1, h2]
    decide
  · rw [count_errors_priority]
    simp [priorityErrors, h1]

/-- Claim C3: the title rules are chained else-if branches, so at most one
title error is ever reported — a missing or non-text title yields exactly the
required/type message and no other title message; a non-empty text title that
trims to nothing yields exactly the empty-title message; a text title
non-empty after trimming and longer than 100 yields exactly the too-long
message. -/
theorem title_rules_else_if (b : JSObject) :
    ((truthy (getField b "title") && isString (getField b "title")) = false →
      ((validateBugData b).errors).count "Title is required and must be a string" = 1 ∧
      ((validateBugData b).errors).count "Title cannot be empty" = 0 ∧
      ((validateBugData b).errors).count "Title cannot exceed 100 characters" = 0) ∧
    (∀ s : String, getField b "title" = JSValue.vStr s → s ≠ "" → jsTrim s = "" →
      ((validateBugData b).errors).count "Title cannot be empty" = 1 ∧
      ((validateBugData b).errors).count "Title is required and must be a string" = 0 ∧
      ((validateBugData b).errors).count "Title cannot exceed 100 characters" = 0) ∧
    (∀ s : String, getField b "title" = JSValue.vStr s → jsTrim s ≠ "" → jsLength s > 100 →
      ((validateBugData b).errors).count "Title cannot exceed 100 characters" = 1 ∧
      ((validateBugData b).errors).count "Title is required and must be a string" = 0 ∧
      ((validateBugData b).errors).count "Title cannot be empty" = 0) := by
  refine ⟨fun h => ?_, fun s hs hne htr => ?_, fun s hs htr hlen => ?_⟩
  · have hc : (!truthy (getField b "title") || !isString (getField b "title")) = true := by
      rw [← Bool.not_and, h]
      rfl
    have ht : titleErrors b = ["Title is required and must be a string"] := by
      simp [titleErrors, hc]
    refine ⟨?_, ?_, ?_⟩ <;> (rw [count_errors_title _ _ (by decide), ht]; decide)
  · have ht : titleErrors b = ["Title cannot be empty"] := by
      simp [titleErrors, hs, truthy, isString, strVal, hne, htr, jsLength]
    refine ⟨?_, ?_, ?_⟩ <;> (rw [count_errors_title _ _ (by decide), ht]; decide)
  · have hne : s ≠ "" := fun he => htr (by rw [he]; rfl)
    have htl : ¬ (jsTrim s).length = 0 := fun h0 =>
      htr (String.ext_iff.mpr (List.length_eq_zero.mp h0))
    have hl2 : 100 < s.length := hlen
    have ht : titleErrors b = ["Title cannot exceed 100 characters"] := by
      simp [titleErrors, hs, truthy, isString, strVal, hne, jsLength, htl, hl2]
    refine ⟨?_, ?_, ?_⟩ <;> (rw [count_errors_title _ _ (by decide), ht]; decide)

lemma mem_validate_errors {b : JSObject} {s : String}
    (h : s ∈ (validateBugData b).errors) :
    s ∈ titleErrors b ∨ s ∈ descriptionErrors b ∨ s ∈ statusErrors b ∨
      s ∈ priorityErrors b ∨ s ∈ reporterErrors b ∨ s ∈ assigneeErrors b ∨
      s ∈ tagsErrors b := by
  rw [validate_errors_eq] at h
  simpa [List.mem_append, or_assoc] using h

lemma sanitized_text_trim_ne_zero (u : JSValue)
    (ht : truthy (sanitizedTextValue u) = true)
    (hs : isString (sanitizedTextValue u) = true) :
    ¬ (jsTrim (strVal (sanitizedTextValue u))).length = 0 := by
  unfold sanitizedTextValue at *
  by_cases hg : (truthy u && isString u) = true
  · rw [if_pos hg] at ht ⊢
    simp only [strVal, jsTrim_idempotent]
    intro h0
    have heq : jsTrim (strVal u) = "" :=
      String.ext_iff.mpr (by simpa using List.length_eq_zero.mp h0)
    rw [heq] at ht
    simp [truthy] at ht
  · rw [if_neg hg] at ht hs
    exact absurd (by rw [Bool.and_eq_true]; exact ⟨ht, hs⟩) hg

lemma titleErrors_sanitized_no_empty (b : JSObject) :
    "Title cannot be empty" ∉ titleErrors (sanitizeBugData b) := by
  intro h
  have hget := getField_sanitize_text b "title" (by decide)
  simp only [titleErrors, hget] at h
  split at h
  · simp at h
  · split at h
    · rename_i h1 h2
      simp at h1
      exact sanitized_text_trim_ne_zero _ h1.1 h1.2 (by simpa [jsLength] using h2)
    · split at h <;> simp at h

lemma descriptionErrors_sanitized_no_empty (b : JSObject) :
    "Description cannot be empty" ∉ descriptionErrors (sanitizeBugData b) := by
  intro h
  have hget := getField_sanitize_text b "description" (by decide)
  simp only [descriptionErrors, hget] at h
  split at h
  · simp at h
  · split at h
    · rename_i h1 h2
      simp at h1
      exact sanitized_text_trim_ne_zero _ h1.1 h1.2 (by simpa [jsLength] using h2)
    · split at h <;> simp at h

lemma reporterErrors_sanitized_no_empty (b : JSObject) :
    "Reporter cannot be empty" ∉ reporterErrors (sanitizeBugData b) := by
  intro h
  have hget := getField_sanitize_text b "reporter" (by decide)
  simp only [reporterErrors, hget] at h
  split at h
  · simp at h
  · split at h
    · rename_i h1 h2
      simp at h1
      exact sanitized_text_trim_ne_zero _ h1.1 h1.2 (by simpa [jsLength] using h2)
    · simp at h

/-- Claim C10: validating sanitized input can never produce the
"cannot be empty" messages for title, description or reporter — sanitization
trims those fields, so a whitespace-only value becomes the empty string,
which fails the truthiness-based existence check instead. -/
theorem sanitize_then_validate_no_empty_errors (b : JSObject) :
    "Title cannot be empty" ∉ (validateBugData (sanitizeBugData b)).errors ∧
    "Description cannot be empty" ∉ (validateBugData (sanitizeBugData b)).errors ∧
    "Reporter cannot be empty" ∉ (validateBugData (sanitizeBugData b)).errors := by
  refine ⟨fun h => ?_, fun h => ?_, fun h => ?_⟩ <;>
    rcases mem_validate_errors h with h' | h' | h' | h' | h' | h' | h'
  · exact titleErrors_sanitized_no_empty b h'
  · exact absurd (mem_descriptionErrors h') (by decide)
  · exact absurd (mem_statusErrors h') (by decide)
  · exact absurd (mem_priorityErrors h') (by decide)
  · exact absurd (mem_reporterErrors h') (by decide)
  · exact absurd (mem_assigneeErrors h') (by decide)
  · rcases mem_tagsErrors h' with he | ⟨i, he⟩
    · exact absurd he (by decide)
    · exact tagIndexError_ne i _ (by decide) he.symm
  · exact absurd (mem_titleErrors h') (by decide)
  · exact descriptionErrors_sanitized_no_empty b h'
  · exact absurd (mem_statusErrors h') (by decide)
  · exact absurd (mem_priorityErrors h') (by decide)
  · exact absurd (mem_reporterErrors h') (by decide)
  · exact absurd (mem_assigneeErrors h') (by decide)
  · rcases mem_tagsErrors h' with he | ⟨i, he⟩
    · exact absurd he (by decide)
    · exact tagIndexError_ne i _ (by decide) he.symm
  · exact absurd (mem_titleErrors h') (by decide)
  · exact absurd (mem_descriptionErrors h') (by decide)
  · exact absurd (mem_statusErrors h') (by decide)
  · exact absurd (mem_priorityErrors h') (by decide)
  · exact reporterErrors_sanitized_no_empty b h'
  · exact absurd (mem_assigneeErrors h') (by decide)
  · rcases mem_tagsErrors h' with he | ⟨i, he⟩
    · exact absurd he (by decide)
    · exact tagIndexError_ne i _ (by decide) he.symm

lemma sanitizeTagList_eq_spec (l : List JSValue) :
    sanitizeTagList l = specTagCleanup l := by
  induction l with
  | nil => rfl
  | cons v t ih =>
    cases v with
    | vStr s =>
      by_cases he : jsTrim s = ""
      · have h0 : ¬ ((jsTrim s).length > 0) := by
          rw [he]
          decide
        simp only [sanitizeTagList, specTagCleanup, List.filter, List.map, List.filterMap,
          isString, strVal, jsLength] at ih ⊢
        simp [he, h0] at ih ⊢
        exact ih
      · have h0 : (jsTrim s).length > 0 := by
          rcases Nat.eq_zero_or_pos (jsTrim s).length with h | h
          · exact absurd (String.ext_iff.mpr (by simpa using List.length_eq_zero.mp h)) he
          · exact h
        simp only [sanitizeTagList, specTagCleanup, List.filter, List.map, List.filterMap,
          isString, strVal, jsLength] at ih ⊢
        simp [he, h0] at ih ⊢
        exact ih
    | vNum n => simpa [sanitizeTagList, specTagCleanup, isString] using ih
    | vBool x => simpa [sanitizeTagList, specTagCleanup, isString] using ih
    | vNull => simpa [sanitizeTagList, specTagCleanup, isString] using ih
    | vUndefined => simpa [sanitizeTagList, specTagCleanup, isString] using ih
    | vArr a => simpa [sanitizeTagList, specTagCleanup, isString] using ih

/-- Claim C2: when the input's `tags` field is an array, `sanitizeBugData`
outputs the sequence with every non-string dropped, every survivor trimmed,
and every element empty after trimming dropped, order preserved
(`specTagCleanup` is the spec's wording of that transformation). -/
theorem sanitize_tags_follows_spec (b : JSObject) (l : List JSValue)
    (h : getField b "tags" = JSValue.vArr l) :
    getField (sanitizeBugData b) "tags" = JSValue.vArr (specTagCleanup l) := by
  rw [getField_sanitize_tags b l h, sanitizeTagList_eq_spec]

/-- Claim C2, witnessed on the spec's worked example
`["  tag1  ", "", "  tag2  ", 123]`, which sanitizes to `["tag1", "tag2"]`. -/
theorem sanitize_tags_follows_spec_witness :
    getField (sanitizeBugData [("tags", JSValue.vArr exampleTagList)]) "tags" =
      JSValue.vArr [JSValue.vStr "tag1", JSValue.vStr "tag2"] :=
  (sanitize_tags_follows_spec [("tags", JSValue.vArr exampleTagList)] exampleTagList rfl).trans
    rfl

/-- Claim C7 counterexample: `tags` is a field other than the four text
fields, yet `sanitizeBugData` does not pass it through unchanged — on
`{tags: ["  a  "]}` the output tags differ from the input tags. -/
theorem sanitize_changes_tags_field :
    getField (sanitizeBugData [("tags", JSValue.vArr [JSValue.vStr "  a  "])]) "tags" ≠
      getField [("tags", JSValue.vArr [JSValue.vStr "  a  "])] "tags" := by
  intro h
  rw [show getField (sanitizeBugData [("tags", JSValue.vArr [JSValue.vStr "  a  "])]) "tags" =
      JSValue.vArr [JSValue.vStr "a"] from rfl,
    show getField [("tags", JSValue.vArr [JSValue.vStr "  a  "])] "tags" =
      JSValue.vArr [JSValue.vStr "  a  "] from rfl] at h
  simp at h

/-- Claim C7 as amended: `sanitizeBugData` replaces each of title,
description, reporter and assignee by its trimmed form when the field holds
text, leaves those fields untouched otherwise, and passes every field other
than those four and `tags` through unchanged (`tags` is instead cleaned as
claim C2 states); the embedding is a total function, modelling that
sanitization never fails. -/
theorem sanitize_text_fields_and_frame (b : JSObject) :
    (∀ f ∈ ["title", "description", "reporter", "assignee"], ∀ s : String,
      getField b f = JSValue.vStr s →
        getField (sanitizeBugData b) f = JSValue.vStr (jsTrim s)) ∧
    (∀ f ∈ ["title", "description", "reporter", "assignee"],
      isString (getField b f) = false →
        getField (sanitizeBugData b) f = getField b f) ∧
    (∀ k, k ∉ ["title", "description", "reporter", "assignee", "tags"] →
      getField (sanitizeBugData b) k = getField b k) := by
  refine ⟨fun f hf s hs => ?_, fun f hf hns => ?_, fun k hk => getField_sanitize_other b k hk⟩
  · rw [getField_sanitize_text b f hf, hs]
    unfold sanitizedTextValue
    by_cases he : s = ""
    · subst he
      rw [if_neg (by simp [truthy])]
      rfl
    · rw [if_pos (by simp [truthy, isString, he])]
      rfl
  · rw [getField_sanitize_text b f hf]
    unfold sanitizedTextValue
    rw [if_neg (by simp [hns])]

lemma specPut_implies_runs (o : JSObject) (h : specPutRunsValidation o = true) :
    putRunsValidation o = true := by
  simp only [specPutRunsValidation, Bool.or_eq_true, decide_eq_true_eq] at h
  rcases h with h | h
  · simp only [putRunsValidation, Bool.or_eq_true, decide_eq_true_eq]
    exact Or.inl h
  · by_cases hl : (objKeys o).length > 1
    · simp only [putRunsValidation, Bool.or_eq_true, decide_eq_true_eq]
      exact Or.inl hl
    · simp only [List.any_eq_true, bne_iff_ne] at h
      obtain ⟨k, hk, hne⟩ := h
      have hkeys : objKeys o = [k] := by
        cases ho : objKeys o with
        | nil => rw [ho] at hk; simp at hk
        | cons a t =>
          rw [ho] at hk hl
          cases t with
          | nil =>
            simp at hk
            rw [hk]
          | cons a2 t2 => simp at hl
      have hst : truthy (getField o "status") = false := by
        by_contra hc
        rw [Bool.not_eq_false] at hc
        have hmem := mem_objKeys_of_truthy o "status" hc
        rw [hkeys] at hmem
        simp at hmem
        exact hne hmem.symm
      simp only [putRunsValidation, Bool.or_eq_true]
      right
      simp [hst]

lemma putSkip_iff (o : JSObject) :
    putRunsValidation o = false ↔
      (objKeys o = ["status"] ∧ truthy (getField o "status") = true) := by
  constructor
  · intro h
    simp only [putRunsValidation, Bool.or_eq_false_iff, decide_eq_false_iff_not] at h
    obtain ⟨hl, ht⟩ := h
    have ht' : truthy (getField o "status") = true := by simpa using ht
    refine ⟨?_, ht'⟩
    have hmem := mem_objKeys_of_truthy o "status" ht'
    cases ho : objKeys o with
    | nil => rw [ho] at hmem; simp at hmem
    | cons a t =>
      rw [ho] at hmem hl
      cases t with
      | nil =>
        simp at hmem
        rw [hmem]
      | cons a2 t2 => simp at hl
  · rintro ⟨hk, ht⟩
    simp [putRunsValidation, hk, ht]

/-- Claim C4 as amended: for a well-formed id, full validation runs whenever
the sanitized body has more than one key or any key other than `status` (the
claim's preserved half), and it is skipped if and only if the sanitized
body's only key is `status` with a truthy (non-empty) value — not merely
whenever the body contains only the `status` key. -/
theorem put_validation_gate (db : DbApi) (id : String) (body : JSObject)
    (h : isValidObjectId id = true) :
    (specPutRunsValidation (sanitizeBugData body) = true →
      putHandler db id body =
        if (validateBugData (sanitizeBugData body)).isValid = true then
          putUpdateStep db id (sanitizeBugData body)
        else
          ([], ⟨400, ResBody.errDetails "Validation failed"
            (validateBugData (sanitizeBugData body)).errors⟩)) ∧
    (putRunsValidation (sanitizeBugData body) = false ↔
      (objKeys (sanitizeBugData body) = ["status"] ∧
        truthy (getField (sanitizeBugData body) "status") = true)) ∧
    (putRunsValidation (sanitizeBugData body) = false →
      putHandler db id body = putUpdateStep db id (sanitizeBugData body)) := by
  refine ⟨fun hs => ?_, putSkip_iff _, fun hn => ?_⟩
  · have hr := specPut_implies_runs _ hs
    by_cases hv : (validateBugData (sanitizeBugData body)).isValid = true
    · simp [putHandler, h, hr, hv]
    · rw [Bool.not_eq_true] at hv
      simp [putHandler, h, hr, hv]
  · simp [putHandler, h, hn]

/-- Claim C4 counterexample: the body `{status: ""}` sanitizes to a mapping
whose only key is `status`, so the claim says full validation is skipped; the
handler nevertheless runs validation and answers 400 with no store call. -/
theorem put_status_only_falsy_still_validates :
    specPutRunsValidation (sanitizeBugData [("status", JSValue.vStr "")]) = false ∧
    (putHandler dbAlways "507f1f77bcf86cd799439011" [("status", JSValue.vStr "")]).2.status =
      400 ∧
    (putHandler dbAlways "507f1f77bcf86cd799439011" [("status", JSValue.vStr "")]).1 = [] :=
  ⟨rfl, rfl, rfl⟩

/-- Claim C4 witness at the concrete body `{status: "open"}` against an
always-succeeding store. -/
theorem put_validation_gate_witness :
    putRunsValidation (sanitizeBugData [("status", JSValue.vStr "open")]) = false ↔
      (objKeys (sanitizeBugData [("status", JSValue.vStr "open")]) = ["status"] ∧
        truthy (getField (sanitizeBugData [("status", JSValue.vStr "open")]) "status") =
          true) :=
  (put_validation_gate dbAlways "507f1f77bcf86cd799439011" [("status", JSValue.vStr "open")]
    (by decide)).2.1

/-- Claim C8: when the id fails the 24-hex shape check, the GET/:id, PUT/:id
and DELETE/:id handlers each answer 400 with an empty database-call trace —
the store is never consulted. -/
theorem invalid_id_rejected_before_db (db : DbApi) (id : String) (body : JSObject)
    (h : isValidObjectId id = false) :
    getByIdHandler db id = ([], ⟨400, ResBody.errMsg "Invalid bug ID format"⟩) ∧
    putHandler db id body = ([], ⟨400, ResBody.errMsg "Invalid bug ID format"⟩) ∧
    deleteHandler db id = ([], ⟨400, ResBody.errMsg "Invalid bug ID format"⟩) := by
  refine ⟨?_, ?_, ?_⟩ <;> simp [getByIdHandler, putHandler, deleteHandler, h]

/-- Claim C8 witness at the spec's 23-character reject example. -/
theorem invalid_id_rejected_before_db_witness :
    getByIdHandler dbAlways "507f1f77bcf86cd79943901" =
      ([], ⟨400, ResBody.errMsg "Invalid bug ID format"⟩) ∧
    putHandler dbAlways "507f1f77bcf86cd79943901" [] =
      ([], ⟨400, ResBody.errMsg "Invalid bug ID format"⟩) ∧
    deleteHandler dbAlways "507f1f77bcf86cd79943901" =
      ([], ⟨400, ResBody.errMsg "Invalid bug ID format"⟩) :=
  invalid_id_rejected_before_db dbAlways "507f1f77bcf86cd79943901" [] (by decide)

lemma condFilter_sublist (c : Bool) (p : ClientBug → Bool) (l : List ClientBug) :
    List.Sublist (if c = true then l.filter p else l) l := by
  split
  · exact List.filter_sublist l
  · exact List.Sublist.refl l

lemma mem_filterBugs (bugs : List ClientBug) (f : BugFilter) (x : ClientBug) :
    x ∈ filterBugs bugs f ↔ x ∈ bugs ∧
      (f.status = "" ∨ x.status = f.status) ∧
      (f.priority = "" ∨ x.priority = f.priority) ∧
      (f.search = "" ∨ matchesSearch (jsToLower f.search) x = true) := by
  unfold filterBugs
  by_cases h1 : f.status = "" <;> by_cases h2 : f.priority = "" <;>
    by_cases h3 : f.search = "" <;>
      simp [h1, h2, h3, List.mem_filter] <;> tauto

/-- Claim C9 (the `BugList` component's filter, embedded from the component
source staged inside `server/tests/integration/bugs.test.js`): the filtered
list is a subsequence of the input (the input list is never mutated; the code
filters a copy), membership is exactly the conjunction of the non-empty
criteria — equal status, equal priority, case-insensitive substring match of
the search term across title, description, reporter, assignee (when present)
and any tag — and composing the status and search criteria yields precisely
the intersection of each criterion's result set. -/
theorem client_filter_spec (bugs : List ClientBug) (f : BugFilter) :
    List.Sublist (filterBugs bugs f) bugs ∧
    (∀ b, b ∈ filterBugs bugs f ↔ b ∈ bugs ∧
      (f.status = "" ∨ b.status = f.status) ∧
      (f.priority = "" ∨ b.priority = f.priority) ∧
      (f.search = "" ∨ matchesSearch (jsToLower f.search) b = true)) ∧
    (∀ s q b, b ∈ filterBugs bugs ⟨s, "", q⟩ ↔
      (b ∈ filterBugs bugs ⟨s, "", ""⟩ ∧ b ∈ filterBugs bugs ⟨"", "", q⟩)) := by
  refine ⟨?_, mem_filterBugs bugs f, fun s q b => ?_⟩
  · unfold filterBugs
    exact (condFilter_sublist _ _ _).trans
      ((condFilter_sublist _ _ _).trans (condFilter_sublist _ _ _))
  · rw [mem_filterBugs, mem_filterBugs, mem_filterBugs]
    simp only []
    tauto
